import Mathlib

/-!
Shallow embedding of the DebugMonitor core: the symbol-path synchronization
service (`SymbolPathService`) and the process-handle layer (`Process`).

The environment-variable store is modelled as an explicit state record that
also keeps the trace of `SetVariable` calls, so that call-count properties
become properties of the trace.  The file-existence checker is a parameter
`dirExists : String → Bool`.
-/

/-- Result of `SymbolPathService::UpdateApplicationPath`: the service reports
either success or failure, with no further distinction. -/
inductive UpdateResult where
  | Success : UpdateResult
  | Failure : UpdateResult
deriving DecidableEq, Repr

/-- The environment-variable store (the consumed `EnvironmentVariableStore`
interface), restricted to the single symbol-path variable the service uses.
`value` is the currently persisted value (`none` = variable absent),
`admits` decides whether a `SetVariable` call is accepted (persist failure
otherwise), and `setCalls` is the trace of values passed to `SetVariable`,
in call order. -/
structure EnvStore where
  value : Option String
  admits : String → Bool
  setCalls : List String

/-- Reading the variable: `GetVariable(name) -> optional string`. -/
def EnvStore.GetVariable (store : EnvStore) : Option String :=
  store.value

/-- Writing the variable: `SetVariable(name, value) -> boolean`.  The write is
atomic: when rejected, the stored value is unchanged.  Every call is recorded
in the trace. -/
def EnvStore.SetVariable (store : EnvStore) (v : String) : Bool × EnvStore :=
  if store.admits v then
    (true, { value := some v, admits := store.admits, setCalls := store.setCalls ++ [v] })
  else
    (false, { value := store.value, admits := store.admits, setCalls := store.setCalls ++ [v] })

/-- Immutable configuration: the fixed leading segment of the search path
(the tests use the symbol-server specification string `*SRV`).  The spec
calls this the fixed prefix. -/
structure Settings where
  symbolServer : String
deriving DecidableEq, Repr

/-- In-memory state of `SymbolPathService`: the configured fixed leading
segment and the last successfully validated application path (absent before
the first successful update). -/
structure SymbolPathService where
  symbolServer : String
  applicationPath : Option String
deriving DecidableEq, Repr

/-- Modelled from the spec: the write condition of the `SymbolPathService`
constructor (the implementation is not under src/, only its tests are):
"If absent/empty, or if present but not equal to the configured fixed
prefix, write the fixed prefix as the new value". -/
def needsInitialWrite (fixedValue : String) (current : Option String) : Bool :=
  match current with
  | none => true
  | some v => v.isEmpty || v != fixedValue

/-- Modelled from the spec: the `SymbolPathService` constructor (the
implementation is not under src/).  It reads the variable once and writes
the fixed leading segment at most once, when the read value is absent, empty
or different from it. -/
def SymbolPathService.construct (settings : Settings) (store : EnvStore) :
    SymbolPathService × EnvStore :=
  let current := store.GetVariable
  if needsInitialWrite settings.symbolServer current then
    let result := store.SetVariable settings.symbolServer
    ({ symbolServer := settings.symbolServer, applicationPath := none }, result.2)
  else
    ({ symbolServer := settings.symbolServer, applicationPath := none }, store)

/-- Modelled from the spec: `SymbolPathService::UpdateApplicationPath` (the
implementation is not under src/, only its tests are).  Validate the
directory, compute `fixed + ";" + candidatePath`, write it, and make the
boolean result of the write the returned Success/Failure; on success record
the candidate as the in-memory application path. -/
def SymbolPathService.UpdateApplicationPath (svc : SymbolPathService)
    (dirExists : String → Bool) (store : EnvStore) (candidatePath : String) :
    UpdateResult × SymbolPathService × EnvStore :=
  if dirExists candidatePath then
    let newValue := svc.symbolServer ++ ";" ++ candidatePath
    let result := store.SetVariable newValue
    if result.1 then
      (UpdateResult.Success,
       { symbolServer := svc.symbolServer, applicationPath := some candidatePath },
       result.2)
    else
      (UpdateResult.Failure, svc, result.2)
  else
    (UpdateResult.Failure, svc, store)

/-- Runs a sequence of `UpdateApplicationPath` calls on one service, threading
the service state and the store, and collecting the returned results in call
order. -/
def SymbolPathService.runUpdates (dirExists : String → Bool)
    (svc : SymbolPathService) (store : EnvStore) :
    List String → SymbolPathService × EnvStore × List UpdateResult
  | [] => (svc, store, [])
  | p :: ps =>
      let step := svc.UpdateApplicationPath dirExists store p
      let rest := SymbolPathService.runUpdates dirExists step.2.1 step.2.2 ps
      (rest.1, rest.2.1, step.1 :: rest.2.2)

/-- A concrete store whose variable already holds the fixed segment and that
accepts every write; used by the witnesses. -/
def demoStore : EnvStore :=
  { value := some "*SRV", admits := fun _ => true, setCalls := [] }

/-- A concrete service configured with the tests' `*SRV` fixed segment. -/
def demoSvc : SymbolPathService :=
  { symbolServer := "*SRV", applicationPath := none }

/-- A file checker for which every directory exists. -/
def allDirs : String → Bool := fun _ => true

/-- A file checker for which no directory exists. -/
def noDirs : String → Bool := fun _ => false

-- Helper lemmas about single updates.

/-- An update never changes the configured fixed segment. -/
theorem UpdateApplicationPath_symbolServer (svc : SymbolPathService)
    (dirExists : String → Bool) (store : EnvStore) (p : String) :
    (svc.UpdateApplicationPath dirExists store p).2.1.symbolServer = svc.symbolServer := by
  unfold SymbolPathService.UpdateApplicationPath
  by_cases hd : dirExists p <;> simp [hd, EnvStore.SetVariable]
  by_cases ha : store.admits (svc.symbolServer ++ ";" ++ p) <;> simp [ha]

/-- A successful update leaves the store holding exactly
`fixed + ";" + candidate`. -/
theorem UpdateApplicationPath_success_value (svc : SymbolPathService)
    (dirExists : String → Bool) (store : EnvStore) (p : String)
    (h : (svc.UpdateApplicationPath dirExists store p).1 = UpdateResult.Success) :
    (svc.UpdateApplicationPath dirExists store p).2.2.value =
      some (svc.symbolServer ++ ";" ++ p) := by
  unfold SymbolPathService.UpdateApplicationPath at h ⊢
  by_cases hd : dirExists p
  · simp only [hd, if_true] at h ⊢
    by_cases ha : store.admits (svc.symbolServer ++ ";" ++ p) <;>
      simp [EnvStore.SetVariable, ha] at h ⊢
  · simp [hd] at h

/-- Claim C1: for every directory that exists and every write the store
accepts, `UpdateApplicationPath` returns Success and the persisted variable
immediately afterwards equals `fixed + ";" + path`. -/
theorem updateApplicationPath_success_persists
    (svc : SymbolPathService) (store : EnvStore) (dirExists : String → Bool) (p : String)
    (hdir : dirExists p = true)
    (hacc : store.admits (svc.symbolServer ++ ";" ++ p) = true) :
    (svc.UpdateApplicationPath dirExists store p).1 = UpdateResult.Success ∧
    (svc.UpdateApplicationPath dirExists store p).2.2.value =
      some (svc.symbolServer ++ ";" ++ p) := by
  unfold SymbolPathService.UpdateApplicationPath
  simp [hdir, EnvStore.SetVariable, hacc]

/-- Witness for C1 at a concrete service, store and path. -/
theorem updateApplicationPath_success_persists_witness :
    (demoSvc.UpdateApplicationPath allDirs demoStore "C:\\App").1 = UpdateResult.Success ∧
    (demoSvc.UpdateApplicationPath allDirs demoStore "C:\\App").2.2.value =
      some (demoSvc.symbolServer ++ ";" ++ "C:\\App") :=
  updateApplicationPath_success_persists demoSvc demoStore allDirs "C:\\App" rfl rfl

/-- Appending one element always changes a list. -/
theorem append_singleton_ne (l : List String) (v : String) : l ++ [v] ≠ l := by
  intro h
  have hlen := congrArg List.length h
  simp at hlen

/-- Every `SetVariable` call is recorded in the trace, accepted or not. -/
theorem SetVariable_setCalls (store : EnvStore) (v : String) :
    (store.SetVariable v).2.setCalls = store.setCalls ++ [v] := by
  unfold EnvStore.SetVariable
  by_cases h : store.admits v <;> simp [h]

/-- Claim C3: when the directory does not exist the update returns Failure and
neither the store (value and `SetVariable` trace) nor the service state
changes; moreover any failing update leaves the in-memory application path
unchanged. -/
theorem updateApplicationPath_failure_unchanged
    (svc : SymbolPathService) (store : EnvStore) (dirExists : String → Bool) (p : String) :
    (dirExists p = false →
      (svc.UpdateApplicationPath dirExists store p).1 = UpdateResult.Failure ∧
      (svc.UpdateApplicationPath dirExists store p).2.2 = store ∧
      (svc.UpdateApplicationPath dirExists store p).2.1 = svc) ∧
    ((svc.UpdateApplicationPath dirExists store p).1 = UpdateResult.Failure →
      (svc.UpdateApplicationPath dirExists store p).2.1.applicationPath =
        svc.applicationPath) := by
  unfold SymbolPathService.UpdateApplicationPath
  by_cases hd : dirExists p
  · simp only [hd, if_true]
    by_cases ha : store.admits (svc.symbolServer ++ ";" ++ p) <;>
      simp [EnvStore.SetVariable, ha]
  · simp [hd]

/-- Witness for C3 at a concrete service, store and missing directory. -/
theorem updateApplicationPath_failure_unchanged_witness :
    (demoSvc.UpdateApplicationPath noDirs demoStore "C:\\Missing").1 = UpdateResult.Failure ∧
    (demoSvc.UpdateApplicationPath noDirs demoStore "C:\\Missing").2.2 = demoStore ∧
    (demoSvc.UpdateApplicationPath noDirs demoStore "C:\\Missing").2.1 = demoSvc :=
  (updateApplicationPath_failure_unchanged demoSvc demoStore noDirs "C:\\Missing").1 rfl

/-- Claim C2 (amended): after any sequence of successful updates the persisted
value is exactly `fixed + ";" + lastPath`.  In particular an earlier path of
the sequence can occur in the value only as a substring of that final
string. -/
theorem runUpdates_final_value (dirExists : String → Bool) (ps : List String) :
    ∀ (svc : SymbolPathService) (store : EnvStore) (pLast : String),
    (∀ r ∈ (SymbolPathService.runUpdates dirExists svc store (ps ++ [pLast])).2.2,
        r = UpdateResult.Success) →
    (SymbolPathService.runUpdates dirExists svc store (ps ++ [pLast])).2.1.value =
      some (svc.symbolServer ++ ";" ++ pLast) := by
  induction ps with
  | nil =>
      intro svc store pLast hall
      have h1 : (svc.UpdateApplicationPath dirExists store pLast).1 = UpdateResult.Success := by
        apply hall
        simp [SymbolPathService.runUpdates]
      simpa [SymbolPathService.runUpdates] using
        UpdateApplicationPath_success_value svc dirExists store pLast h1
  | cons p ps ih =>
      intro svc store pLast hall
      have hall' : ∀ r ∈ (SymbolPathService.runUpdates dirExists
          (svc.UpdateApplicationPath dirExists store p).2.1
          (svc.UpdateApplicationPath dirExists store p).2.2 (ps ++ [pLast])).2.2,
          r = UpdateResult.Success := by
        intro r hr
        apply hall
        simp only [List.cons_append, SymbolPathService.runUpdates, List.mem_cons]
        exact Or.inr hr
      have hfinal := ih (svc.UpdateApplicationPath dirExists store p).2.1
        (svc.UpdateApplicationPath dirExists store p).2.2 pLast hall'
      rw [UpdateApplicationPath_symbolServer] at hfinal
      simpa [SymbolPathService.runUpdates] using hfinal

/-- Witness for C2 (amended) at a concrete two-update sequence. -/
theorem runUpdates_final_value_witness :
    (SymbolPathService.runUpdates allDirs demoSvc demoStore
        (["C:\\One"] ++ ["C:\\Two"])).2.1.value =
      some (demoSvc.symbolServer ++ ";" ++ "C:\\Two") :=
  runUpdates_final_value allDirs ["C:\\One"] demoSvc demoStore "C:\\Two" (by decide)

/-- A concrete store and service used by the C2 counterexample. -/
def c2Store : EnvStore := { value := some "p", admits := fun _ => true, setCalls := [] }

/-- A concrete service with fixed segment `p`, used by the C2 counterexample. -/
def c2Svc : SymbolPathService := { symbolServer := "p", applicationPath := none }

/-- Claim C2 counterexample: two successful updates with P1 = `a` then
P2 = `ab` leave the value `p;ab`, in which the earlier path `a` does occur
(as a substring of the later path), refuting "no earlier Pi occurs anywhere
in that value". -/
theorem runUpdates_substring_counterexample :
    (SymbolPathService.runUpdates allDirs c2Svc c2Store ["a", "ab"]).2.2 =
      [UpdateResult.Success, UpdateResult.Success] ∧
    (SymbolPathService.runUpdates allDirs c2Svc c2Store ["a", "ab"]).2.1.value =
      some "p;ab" ∧
    "a".data <:+: "p;ab".data := by
  refine ⟨by decide, by decide, by decide⟩

/-- Claim C4 (amended): construction calls `SetVariable` (always with the
fixed segment as the written value) iff the read value is absent, empty, or
differs from the fixed segment; when the read value equals a non-empty fixed
segment exactly it performs zero `SetVariable` calls; and it always performs
at most one write. -/
theorem construct_write_iff (settings : Settings) (store : EnvStore) :
    ((SymbolPathService.construct settings store).2.setCalls ≠ store.setCalls ↔
      (store.value = none ∨ store.value = some "" ∨
        store.value ≠ some settings.symbolServer)) ∧
    ((SymbolPathService.construct settings store).2.setCalls ≠ store.setCalls →
      (SymbolPathService.construct settings store).2.setCalls =
        store.setCalls ++ [settings.symbolServer]) ∧
    (settings.symbolServer ≠ "" → store.value = some settings.symbolServer →
      (SymbolPathService.construct settings store).2.setCalls = store.setCalls) ∧
    (SymbolPathService.construct settings store).2.setCalls.length ≤
      store.setCalls.length + 1 := by
  have hne := append_singleton_ne store.setCalls settings.symbolServer
  unfold SymbolPathService.construct needsInitialWrite EnvStore.GetVariable
  cases hv : store.value with
  | none =>
      simp [SetVariable_setCalls, hne]
  | some v =>
      by_cases hemp : v = ""
      · subst hemp
        by_cases hfix : settings.symbolServer = ""
        · simp [String.isEmpty_iff, SetVariable_setCalls, hne, hfix]
        · simp [String.isEmpty_iff, SetVariable_setCalls, hne, hfix]
          exact fun h => hfix (Eq.symm h)
      · by_cases heq : v = settings.symbolServer
        · subst heq
          simp [String.isEmpty_iff, hemp]
        · simp [String.isEmpty_iff, hemp, heq, SetVariable_setCalls, hne]

/-- Witness for C4 (amended): constructing against a store that already holds
the non-empty fixed segment performs no write. -/
theorem construct_write_iff_witness :
    (SymbolPathService.construct (Settings.mk "*SRV") demoStore).2.setCalls =
      demoStore.setCalls :=
  (construct_write_iff (Settings.mk "*SRV") demoStore).2.2.1 (by decide) rfl

/-- A concrete store whose stored value is the empty string; used by the C4
counterexample. -/
def emptyValueStore : EnvStore :=
  { value := some "", admits := fun _ => true, setCalls := [] }

/-- Claim C4 counterexample: when the configured fixed segment is the empty
string and the stored value equals it exactly, construction still performs
one `SetVariable` call (the spec's absent/empty case), refuting "when the
read value already equals the fixed prefix exactly, construction performs
zero SetVariable calls". -/
theorem construct_equal_value_counterexample :
    emptyValueStore.value = some (Settings.mk "").symbolServer ∧
    (SymbolPathService.construct (Settings.mk "") emptyValueStore).2.setCalls = [""] :=
  ⟨rfl, rfl⟩

/-!
The process-handle layer (`src/Shared/Process.cpp`).  The underlying
`ProcessImpl` layer is not under src/, so its behavior enters either as a
universally quantified parameter or as a definition modelled from the spec.
-/

/-- A fault raised by the OS/implementation layer (a thrown `std::exception`
in the source). -/
structure OsFault where
  message : String
deriving DecidableEq, Repr

/-- Liveness state of an OS process: running, or exited with the OS-reported
termination value. -/
inductive ProcState where
  | Running : ProcState
  | Exited : Int → ProcState
deriving DecidableEq, Repr

/-- A process record (`Shared::Model::Process`): OS-assigned identifier plus
liveness state. -/
structure ProcessRecord where
  pid : Nat
  state : ProcState
deriving DecidableEq, Repr

/-- Non-blocking liveness check (`Process::IsRunning`, delegating to the
implementation layer's state). -/
def ProcessRecord.IsRunning (p : ProcessRecord) : Bool :=
  match p.state with
  | ProcState.Running => true
  | ProcState.Exited _ => false

/-- Exit code (`Process::ExitCode`): present only after the process has
exited, equal to the OS-reported termination value. -/
def ProcessRecord.ExitCode (p : ProcessRecord) : Option Int :=
  match p.state with
  | ProcState.Running => none
  | ProcState.Exited code => some code

/-- Modelled from the spec: `Process::WaitForExit` delegates to the missing
`ProcessImpl::WaitForExit`; it blocks until termination, after which the
state is Exited with the OS-reported value `osCode`; calling it on an
already exited process is a no-op. -/
def ProcessRecord.WaitForExit (p : ProcessRecord) (osCode : Int) : ProcessRecord :=
  match p.state with
  | ProcState.Running => { pid := p.pid, state := ProcState.Exited osCode }
  | ProcState.Exited _ => p

/-- Modelled from the spec: `Process::Start` via the missing
`ProcessImpl::Start` / `EnvironmentService::StartProcess` — spawning either
yields an OS process id (the child starts in the Running state) or fails at
the OS level, in which case the result is absent and no fault crosses the
boundary. -/
def Process.Start (spawn : String → String → Option Nat)
    (filename arguments : String) : Option ProcessRecord :=
  match spawn filename arguments with
  | some pid => some { pid := pid, state := ProcState.Running }
  | none => none

/-- Embeds `Process::GetPathToRunningProcess` (src/Shared/Process.cpp lines
81-91): the implementation-layer lookup either returns an optional path or
raises a fault; the source wraps the call in a catch-all that converts any
fault into an absent value. -/
def Process.GetPathToRunningProcess
    (impl : String → Except OsFault (Option String)) (processName : String) :
    Option String :=
  match impl processName with
  | Except.ok p => p
  | Except.error _ => none

/-- Steps taken while destroying a `Process`. -/
inductive DtorAction where
  | waitForExit : DtorAction
  | releaseRef : DtorAction
deriving DecidableEq, Repr

/-- Embeds `Process::~Process` (src/Shared/Process.cpp lines 55-59) as the
sequence of actions destruction performs: the `if (IsRunning()) WaitForExit()`
guard is from the source; the final release of the owned OS process reference
is modelled from the spec ("Destruction releases the reference"), the owning
implementation layer being absent from src/. -/
def Process.destroyTrace (running : Bool) : List DtorAction :=
  (if running then [DtorAction.waitForExit] else []) ++ [DtorAction.releaseRef]

/-- An implementation-layer process record as enumerated by
`ProcessImpl::GetProcessesByName`. -/
structure ProcessImplRecord where
  pid : Nat
deriving DecidableEq, Repr

/-- Modelled from the spec: `ProcessImpl::GetProcessesByName` (not under
src/).  `allProcesses` lists the currently running OS processes as
(id, image name) pairs; an empty name yields an empty sequence, otherwise
one record per process whose image name matches. -/
def ProcessImpl.GetProcessesByName (allProcesses : List (Nat × String))
    (processName : String) : List ProcessImplRecord :=
  if processName = "" then []
  else
    (allProcesses.filter (fun entry => entry.2 == processName)).map
      (fun entry => { pid := entry.1 })

/-- A `Shared::Model::Process` as built by `GetProcessesByName`: a wrapper
owning one implementation-layer record. -/
structure ProcessWrapper where
  pImpl : ProcessImplRecord
deriving DecidableEq, Repr

/-- Embeds `Process::GetProcessesByName` (src/Shared/Process.cpp lines
38-48): obtains the implementation-layer enumeration and, in a loop, appends
one new wrapper per implementation record. -/
def Process.GetProcessesByName (allProcesses : List (Nat × String))
    (processName : String) : List ProcessWrapper :=
  (ProcessImpl.GetProcessesByName allProcesses processName).foldl
    (fun acc pImpl => acc ++ [{ pImpl := pImpl }]) []

/-- The emplace-back loop is exactly a map, for any accumulator. -/
theorem foldl_append_singleton (l : List ProcessImplRecord) :
    ∀ acc : List ProcessWrapper,
      l.foldl (fun acc pImpl => acc ++ [{ pImpl := pImpl }]) acc =
        acc ++ l.map (fun pImpl => { pImpl := pImpl }) := by
  induction l with
  | nil => intro acc; simp
  | cons x xs ih => intro acc; simp [List.foldl_cons, ih]

/-- Claim C5: `GetPathToRunningProcess` returns an absent value both when the
lookup finds no match and when the implementation layer raises a fault; the
fault is converted to absence at this boundary. -/
theorem getPathToRunningProcess_absent
    (impl : String → Except OsFault (Option String)) (processName : String) :
    (impl processName = Except.ok none →
      Process.GetPathToRunningProcess impl processName = none) ∧
    (∀ f : OsFault, impl processName = Except.error f →
      Process.GetPathToRunningProcess impl processName = none) := by
  constructor
  · intro h
    simp [Process.GetPathToRunningProcess, h]
  · intro f h
    simp [Process.GetPathToRunningProcess, h]

/-- A lookup layer that always raises an access-denied fault. -/
def faultingLookup : String → Except OsFault (Option String) :=
  fun _ => Except.error { message := "access denied" }

/-- Witness for C5: the faulting lookup yields absence, not a fault. -/
theorem getPathToRunningProcess_absent_witness :
    Process.GetPathToRunningProcess faultingLookup "app.exe" = none :=
  (getPathToRunningProcess_absent faultingLookup "app.exe").2
    { message := "access denied" } rfl

/-- Claim C6: destruction performs exactly one release of the owned OS
process reference, the release is the last action, and when the process is
still running the wait-for-exit strictly precedes the release. -/
theorem destroyTrace_waits_then_releases (running : Bool) :
    (Process.destroyTrace running).count DtorAction.releaseRef = 1 ∧
    (Process.destroyTrace running).getLast? = some DtorAction.releaseRef ∧
    (running = true →
      Process.destroyTrace running =
        [DtorAction.waitForExit, DtorAction.releaseRef]) := by
  cases running <;> simp [Process.destroyTrace]

/-- Witness for C6: destroying a still-running record waits, then releases. -/
theorem destroyTrace_waits_then_releases_witness :
    Process.destroyTrace true = [DtorAction.waitForExit, DtorAction.releaseRef] :=
  (destroyTrace_waits_then_releases true).2.2 rfl

/-- Claim C7: when spawning fails at the OS level (executable not found or
any other spawn failure), `Start` returns an absent result; being a total
function, it never lets a fault cross the boundary. -/
theorem start_absent_on_spawn_failure (spawn : String → String → Option Nat)
    (filename arguments : String)
    (h : spawn filename arguments = none) :
    Process.Start spawn filename arguments = none := by
  simp [Process.Start, h]

/-- A spawner that always fails (no executable can be found). -/
def failingSpawn : String → String → Option Nat := fun _ _ => none

/-- Witness for C7: the failing spawner yields an absent result. -/
theorem start_absent_on_spawn_failure_witness :
    Process.Start failingSpawn "" "" = none :=
  start_absent_on_spawn_failure failingSpawn "" "" rfl

/-- Claim C8: enumerating with the empty process name yields the empty
sequence, whatever processes are running. -/
theorem getProcessesByName_empty_name (allProcesses : List (Nat × String)) :
    Process.GetProcessesByName allProcesses "" = [] := by
  simp [Process.GetProcessesByName, ProcessImpl.GetProcessesByName]

/-- Claim C9: a successfully started record is running with an absent exit
code, and after waiting for exit it is no longer running and its exit code is
the OS-reported value. -/
theorem started_process_lifecycle (spawn : String → String → Option Nat)
    (filename arguments : String) (record : ProcessRecord)
    (h : Process.Start spawn filename arguments = some record) (osCode : Int) :
    record.IsRunning = true ∧ record.ExitCode = none ∧
    (record.WaitForExit osCode).IsRunning = false ∧
    (record.WaitForExit osCode).ExitCode = some osCode := by
  unfold Process.Start at h
  cases hs : spawn filename arguments with
  | none => rw [hs] at h; exact absurd h (by simp)
  | some pid =>
      rw [hs] at h
      have hrec : record = { pid := pid, state := ProcState.Running } := by
        injection h with h'
        exact h'.symm
      subst hrec
      simp [ProcessRecord.IsRunning, ProcessRecord.ExitCode, ProcessRecord.WaitForExit]

/-- A spawner that always succeeds with process id 7. -/
def okSpawn : String → String → Option Nat := fun _ _ => some 7

/-- Witness for C9 at a concrete spawn and exit code. -/
theorem started_process_lifecycle_witness :
    ({ pid := 7, state := ProcState.Running } : ProcessRecord).IsRunning = true ∧
    ({ pid := 7, state := ProcState.Running } : ProcessRecord).ExitCode = none ∧
    (({ pid := 7, state := ProcState.Running } : ProcessRecord).WaitForExit 3).IsRunning
      = false ∧
    (({ pid := 7, state := ProcState.Running } : ProcessRecord).WaitForExit 3).ExitCode
      = some 3 :=
  started_process_lifecycle okSpawn "cmd.exe" "" { pid := 7, state := ProcState.Running }
    rfl 3

/-- Claim C10: `Process::GetProcessesByName` produces exactly one wrapper per
record of the implementation-layer enumeration, in the same order — no
record dropped, duplicated or reordered. -/
theorem getProcessesByName_wraps_each_record (allProcesses : List (Nat × String))
    (processName : String) :
    Process.GetProcessesByName allProcesses processName =
      (ProcessImpl.GetProcessesByName allProcesses processName).map
        (fun pImpl => { pImpl := pImpl }) := by
  unfold Process.GetProcessesByName
  rw [foldl_append_singleton]
  simp
